import Mathlib

/-!
Verification of the Premiere Pro timeline-import bridge.

The repository ships two variants of the same bridge:

* the in-process UXP variant (class PremiereBridge in js/premiere-bridge.js:
  getOrCreateVoiceoverBin, importFile, insertIntoTimeline, importAndInsert,
  getAudioTracks), and
* the legacy ExtendScript/CEP variant (_getOrCreateVoiceoverBin, importFile,
  importAndInsert, getAudioTracks in the ExtendScript host file).

Both are embedded here as pure state-passing functions over a `World` that
records the host state visible to the bridge (project/sequence presence,
folder contents, track count, playhead) together with the host behaviour at
each host-API call site (whether a call throws, whether importFiles reports
success, which items the host adds to the target folder on import).
-/

namespace PremiereBridge

/-- A project item as the bridge sees it: `itemId` models `getId()`
(`none` means the call throws), `name` models `.name`, `isBin` models
"castable to FolderItem" in the UXP variant and `.type === 2` in the
ExtendScript variant. -/
structure Item where
  itemId : Option String
  name : String
  isBin : Bool
deriving DecidableEq, Repr

/-- Host state and host behaviour visible to the bridge during one call.
`binItems` is the content of the first top-level "Voiceovers" bin (when one
exists); `importAddedItems` is what the host appends to the import target
folder when `importFiles` runs; the `...Throws` flags say whether the host
raises at the corresponding call site. -/
structure World where
  hasProject : Bool
  hasSequence : Bool
  rootItems : List Item
  binItems : List Item
  binCreateWorks : Bool
  binResolutionThrows : Bool
  importReturnsSuccess : Bool
  importAddedItems : List Item
  trackCount : Nat
  trackNames : List String
  playerPosition : Nat
  insertHostThrows : Bool
  tracksHostThrows : Bool
  insertedClips : List (Int × Nat)
deriving DecidableEq, Repr

/-- Errors signalled by the UXP variant. The first five are the typed kinds
of the error taxonomy; `hostRaw` models an opaque host exception that the
bridge did not catch and that escapes the boundary as-is. -/
inductive Err where
  | noActiveProject
  | noActiveSequence
  | importRejected
  | importItemNotFound
  | insertFailed
  | hostRaw (msg : String)
deriving DecidableEq, Repr

/-- A word character in the sense of the regex class backslash-w used in
`replace(/\.\w+$/, '')`. -/
def isWordChar (c : Char) : Bool :=
  c.isAlpha || c.isDigit || c == '_'

/-- `s.replace(/\.\w+$/, '')`: drop a final dot followed by one or more
word characters, when the string ends that way; otherwise keep `s`. -/
def stripExt (s : String) : String :=
  let rev := s.toList.reverse
  let w := rev.takeWhile isWordChar
  let rest := rev.drop w.length
  match rest with
  | '.' :: pre => if w.isEmpty then s else String.mk pre.reverse
  | _ => s

/-- JavaScript String.split on a character class: cut the character list at
every separator, keeping empty segments, so the result is always
non-empty. -/
def splitSegs (p : Char → Bool) : List Char → List (List Char)
  | [] => [[]]
  | c :: cs =>
    match splitSegs p cs with
    | [] => [[c]]
    | s :: ss => if p c then [] :: s :: ss else (c :: s) :: ss

/-- `filePath.split(/[/\\]/).pop()`: the last path segment. A JavaScript
split always yields a non-empty array, so `pop` is total. -/
def lastSegment (p : String) : String :=
  String.mk (((splitSegs (fun c => c == '/' || c == '\\') p.toList).getLast?).getD [])

/-- Base name of the imported file with its extension stripped, as computed
at js/premiere-bridge.js line 261. -/
def baseFilename (p : String) : String :=
  stripExt (lastSegment p)

/-- `_findBinByName`: first child whose name matches and which casts to a
folder (UXP) / has `type === 2` (ExtendScript); non-bin items with a
matching name are skipped and the scan continues. -/
def findBinByName (items : List Item) (nm : String) : Option Item :=
  items.find? fun it => it.name == nm && it.isBin

/-- The `beforeIds` set built at js/premiere-bridge.js lines 232-235:
for each item, `getId()` when it succeeds, else the synthetic token
`name + '_' + index`. The index argument tracks the position in the
original list, as `beforeItems.indexOf(item)` does on object references. -/
def mkBeforeIdsFrom : Nat → List Item → List String
  | _, [] => []
  | i, it :: rest =>
    (match it.itemId with
     | some s => s
     | none => it.name ++ "_" ++ toString i) :: mkBeforeIdsFrom (i + 1) rest

/-- `beforeIds` for a whole folder listing. -/
def mkBeforeIds (items : List Item) : List String :=
  mkBeforeIdsFrom 0 items

/-- The identity-diff test at js/premiere-bridge.js lines 252-258:
`getId()` succeeds, is truthy, and is not in `beforeIds`. -/
def uxpIsNewItem (beforeIds : List String) (it : Item) : Bool :=
  match it.itemId with
  | some s => !(s == "") && !(beforeIds.contains s)
  | none => false

/-- The track-index computation of the UXP `insertIntoTimeline`
(js/premiere-bridge.js line 301):
`Math.min(audioTrackIndex, Math.max(trackCount - 1, 0))`. -/
def uxpClampTrack (idx : Int) (trackCount : Nat) : Int :=
  min idx (max ((trackCount : Int) - 1) 0)

/-- The track-index computation of the ExtendScript `importAndInsert`
(lines 106-111): negatives become 0, then indices at or beyond the track
count become `Math.max(trackCount - 1, 0)`. -/
def esClampTrack (idx : Int) (trackCount : Nat) : Int :=
  let t := if idx < 0 then 0 else idx
  if t ≥ (trackCount : Int) then max ((trackCount : Int) - 1) 0 else t

/-- UXP `getOrCreateVoiceoverBin` (js/premiere-bridge.js lines 176-197):
require a project, search the root for a "Voiceovers" bin, otherwise create
one in an undoable transaction and re-query. `binResolutionThrows` models a
host exception inside the folder enumeration; `binCreateWorks` models
whether the create transaction actually produces the bin. -/
def getOrCreateVoiceoverBin (w : World) : Except Err (Option Item) × World :=
  if !w.hasProject then (.error .noActiveProject, w)
  else if w.binResolutionThrows then (.error (.hostRaw "getItems failed"), w)
  else
    match findBinByName w.rootItems "Voiceovers" with
    | some b => (.ok (some b), w)
    | none =>
      if w.binCreateWorks then
        let nb : Item := { itemId := none, name := "Voiceovers", isBin := true }
        let w1 := { w with rootItems := w.rootItems ++ [nb], binItems := [] }
        (.ok (findBinByName w1.rootItems "Voiceovers"), w1)
      else
        (.ok none, w)

/-- UXP `importFile` (js/premiere-bridge.js lines 211-274): require a
project; try to resolve the Voiceovers bin, falling back to the root folder
when that throws or yields null; snapshot the folder, import, then locate
the new item by the identity diff, then by base filename, then by
last-item-if-count-grew; otherwise return null. -/
def importFile (filePath : String) (w : World) : Except Err (Option Item) × World :=
  if !w.hasProject then (.error .noActiveProject, w)
  else
    let binRes :=
      match getOrCreateVoiceoverBin w with
      | (.ok b, w1) => (b, w1)
      | (.error _, w1) => (none, w1)
    let voiceoverBin := binRes.1
    let w1 := binRes.2
    let beforeItems := if voiceoverBin.isSome then w1.binItems else w1.rootItems
    let beforeIds := mkBeforeIds beforeItems
    if !w1.importReturnsSuccess then (.error .importRejected, w1)
    else
      let afterItems := beforeItems ++ w1.importAddedItems
      let w2 :=
        if voiceoverBin.isSome then { w1 with binItems := afterItems }
        else { w1 with rootItems := afterItems }
      match afterItems.find? (uxpIsNewItem beforeIds) with
      | some it => (.ok (some it), w2)
      | none =>
        match afterItems.find? (fun it => it.name == baseFilename filePath) with
        | some it => (.ok (some it), w2)
        | none =>
          if beforeItems.length < afterItems.length then (.ok afterItems.getLast?, w2)
          else (.ok none, w2)

/-- UXP `insertIntoTimeline` (js/premiere-bridge.js lines 288-320): require
a project and an active sequence, compute the track index with
`uxpClampTrack`, then build and execute the insert action;
`insertHostThrows` models a host exception while building or executing the
action, which the source does not catch. A successful insertion is recorded
in `insertedClips` as (audio track index, playhead position). -/
def insertIntoTimeline (projectItem : Item) (audioTrackIndex : Int) (w : World) :
    Except Err Unit × World :=
  if !w.hasProject then (.error .noActiveProject, w)
  else if !w.hasSequence then (.error .noActiveSequence, w)
  else
    let safeTrackIndex := uxpClampTrack audioTrackIndex w.trackCount
    if w.insertHostThrows then (.error (.hostRaw "insert action failed"), w)
    else (.ok (), { w with insertedClips := w.insertedClips ++ [(safeTrackIndex, w.playerPosition)] })

/-- UXP `importAndInsert` (js/premiere-bridge.js lines 331-341): import,
signal `importItemNotFound` when the item could not be located, otherwise
insert and return the item. -/
def importAndInsert (filePath : String) (audioTrackIndex : Int) (w : World) :
    Except Err Item × World :=
  match importFile filePath w with
  | (.error e, w1) => (.error e, w1)
  | (.ok none, w1) => (.error .importItemNotFound, w1)
  | (.ok (some projectItem), w1) =>
    match insertIntoTimeline projectItem audioTrackIndex w1 with
    | (.error e, w2) => (.error e, w2)
    | (.ok _, w2) => (.ok projectItem, w2)

/-- Body of UXP `getAudioTracks` before its catch-all (js/premiere-bridge.js
lines 350-372): empty list without a project or sequence, else enumerate
tracks; `tracksHostThrows` models a host exception inside the loop. -/
def getAudioTracksBody (w : World) : Except Err (List (Nat × String)) :=
  if !w.hasProject then .ok []
  else if !w.hasSequence then .ok []
  else if w.tracksHostThrows then .error (.hostRaw "getAudioTrack failed")
  else .ok ((List.range w.trackCount).map fun i =>
    let nm := w.trackNames.getD i ""
    (i, if nm == "" then "Audio " ++ toString (i + 1) else nm))

/-- UXP `getAudioTracks`: the body wrapped in the catch-all that turns any
exception into an empty list. -/
def getAudioTracks (w : World) : List (Nat × String) :=
  match getAudioTracksBody w with
  | .ok l => l
  | .error _ => []

end PremiereBridge

namespace ExtendScriptHost

open PremiereBridge (Item World findBinByName esClampTrack)

/-- Error results of the ExtendScript variant, one constructor per
`JSON.stringify({error: ...})` site; `importCaught` and `insertCaught` are
the catch branches of `importFile` and `importAndInsert`. -/
inductive ESErr where
  | noProject
  | noSequence
  | binCreateFailed
  | importFailed
  | itemNotFoundInBin
  | binNotFoundAfterImport
  | couldNotLocateItem
  | importCaught (msg : String)
  | insertCaught (msg : String)
deriving DecidableEq, Repr

/-- ExtendScript `_getOrCreateVoiceoverBin` (lines 20-41): null without a
project; first root child named "Voiceovers" with type 2, else
`rootItem.createBin` (null when creation fails). -/
def esGetOrCreateVoiceoverBin (w : World) : Option Item × World :=
  if !w.hasProject then (none, w)
  else
    match findBinByName w.rootItems "Voiceovers" with
    | some b => (some b, w)
    | none =>
      if w.binCreateWorks then
        let nb : Item := { itemId := none, name := "Voiceovers", isBin := true }
        (some nb, { w with rootItems := w.rootItems ++ [nb], binItems := [] })
      else (none, w)

/-- ExtendScript `importFile` (lines 51-72): everything inside a try/catch;
the import always targets the Voiceovers bin and the imported item is taken
to be the last child of the bin; the result carries the item name. A host
exception during bin resolution is caught here as an import error. -/
def esImportFile (filePath : String) (w : World) : Except ESErr String × World :=
  if !w.hasProject then (.error .noProject, w)
  else if w.binResolutionThrows then (.error (.importCaught "bin resolution failed"), w)
  else
    match esGetOrCreateVoiceoverBin w with
    | (none, w1) => (.error .binCreateFailed, w1)
    | (some _, w1) =>
      if !w1.importReturnsSuccess then (.error .importFailed, w1)
      else
        let afterBin := w1.binItems ++ w1.importAddedItems
        let w2 := { w1 with binItems := afterBin }
        match afterBin.getLast? with
        | none => (.error .itemNotFoundInBin, w2)
        | some it => (.ok it.name, w2)

/-- ExtendScript `importAndInsert` (lines 83-122): check project and
sequence before importing, re-resolve the bin, take its last child, clamp
the track index with `esClampTrack`, and insert at the playhead; the whole
body is inside a try/catch whose branch is `insertCaught`. -/
def esImportAndInsert (filePath : String) (audioTrackIndex : Int) (w : World) :
    Except ESErr String × World :=
  if !w.hasProject then (.error .noProject, w)
  else if !w.hasSequence then (.error .noSequence, w)
  else
    match esImportFile filePath w with
    | (.error e, w1) => (.error e, w1)
    | (.ok _, w1) =>
      if w1.binResolutionThrows then (.error (.insertCaught "bin resolution failed"), w1)
      else
        match esGetOrCreateVoiceoverBin w1 with
        | (none, w2) => (.error .binNotFoundAfterImport, w2)
        | (some _, w2) =>
          match w2.binItems.getLast? with
          | none => (.error .couldNotLocateItem, w2)
          | some projectItem =>
            let trackIdx := esClampTrack audioTrackIndex w2.trackCount
            if w2.insertHostThrows then (.error (.insertCaught "insertClip failed"), w2)
            else
              (.ok projectItem.name,
               { w2 with insertedClips := w2.insertedClips ++ [(trackIdx, w2.playerPosition)] })

/-- ExtendScript `getAudioTracks` (lines 131-153): empty array without a
project or sequence; any exception in the loop is caught and yields an
empty array as well. -/
def esGetAudioTracks (w : World) : List (Nat × String) :=
  if !w.hasProject then []
  else if !w.hasSequence then []
  else if w.tracksHostThrows then []
  else (List.range w.trackCount).map fun i =>
    let nm := w.trackNames.getD i ""
    (i, if nm == "" then "Audio " ++ toString (i + 1) else nm)

end ExtendScriptHost

namespace PremiereBridge

/-- A plain audio clip item used in concrete scenarios. -/
def itemOld : Item := { itemId := some "a1", name := "old", isBin := false }

/-- The item the host adds when importing /tmp/vo.mp3 in concrete
scenarios; its name is the base filename with the extension stripped. -/
def itemNew : Item := { itemId := some "a2", name := "vo", isBin := false }

/-- A pre-existing top-level "Voiceovers" bin. -/
def binItem : Item := { itemId := some "bin1", name := "Voiceovers", isBin := true }

/-- A second fresh-identity item whose name is not the imported base name;
used in ambiguous-diff scenarios. -/
def itemOther : Item := { itemId := some "a9", name := "X", isBin := false }

/-- A fresh-identity item carrying exactly the imported base name; used in
ambiguous-diff scenarios. -/
def itemRenamed : Item := { itemId := some "a10", name := "vo", isBin := false }

/-- A concrete healthy host state: open project and sequence, an existing
Voiceovers bin holding one old clip, two audio tracks, playhead at 7, and a
host that appends `itemNew` to the bin on import. -/
def baseWorld : World :=
  { hasProject := true
    hasSequence := true
    rootItems := [binItem]
    binItems := [itemOld]
    binCreateWorks := true
    binResolutionThrows := false
    importReturnsSuccess := true
    importAddedItems := [itemNew]
    trackCount := 2
    trackNames := ["Mix", ""]
    playerPosition := 7
    insertHostThrows := false
    tracksHostThrows := false
    insertedClips := [] }

/-- baseWorld with no open project. -/
def noProjectWorld : World := { baseWorld with hasProject := false }

end PremiereBridge

namespace PremiereBridge

/-! ### Helper lemmas -/

/-- Every successfully fetched identity of an item of the snapshot list ends
up in the beforeIds set, whatever the starting index. -/
theorem mem_mkBeforeIdsFrom {b : Item} {s : String} (hs : b.itemId = some s) :
    ∀ (l : List Item) (n : Nat), b ∈ l → s ∈ mkBeforeIdsFrom n l := by
  intro l
  induction l with
  | nil => intro n h; cases h
  | cons x xs ih =>
    intro n h
    rcases List.mem_cons.mp h with h1 | h2
    · subst h1
      simp [mkBeforeIdsFrom, hs]
    · exact List.mem_cons_of_mem _ (ih (n + 1) h2)

/-- An item already present in the snapshot never passes the identity-diff
test against the beforeIds built from that snapshot. -/
theorem uxpIsNewItem_eq_false_of_mem {l : List Item} {b : Item} (hb : b ∈ l) :
    uxpIsNewItem (mkBeforeIds l) b = false := by
  unfold uxpIsNewItem
  match h : b.itemId with
  | none => rfl
  | some s =>
    have hmem : s ∈ mkBeforeIds l := mem_mkBeforeIdsFrom h l 0 hb
    have : (mkBeforeIds l).contains s = true := List.elem_eq_true_of_mem hmem
    simp [this]
    exact fun _ => hmem

/-- A scan for the first match skips a prefix with no matches. -/
theorem find?_append_of_forall_false {α : Type} {p : α → Bool} {l₁ l₂ : List α}
    (h : ∀ x ∈ l₁, p x = false) : (l₁ ++ l₂).find? p = l₂.find? p := by
  induction l₁ with
  | nil => rfl
  | cons a l ih =>
    have ha : p a = false := h a (List.mem_cons_self a l)
    rw [List.cons_append, List.find?_cons_of_neg _ (by simp [ha])]
    exact ih fun x hx => h x (List.mem_cons_of_mem a hx)

/-- When exactly one element matches, the first match is that element. -/
theorem find?_eq_some_of_countP_eq_one {α : Type} {p : α → Bool} {l : List α} {a : α}
    (h1 : l.countP p = 1) (ha : a ∈ l) (hp : p a = true) : l.find? p = some a := by
  induction l with
  | nil => cases ha
  | cons x xs ih =>
    by_cases hx : p x = true
    · have hxs : xs.countP p = 0 := by
        have := List.countP_cons_of_pos p xs hx
        omega
      have hax : a = x := by
        rcases List.mem_cons.mp ha with h | h
        · exact h
        · exact absurd hp (List.countP_eq_zero.mp hxs a h)
      subst hax
      exact List.find?_cons_of_pos xs hp
    · have hxs1 : xs.countP p = 1 := by
        have := List.countP_cons_of_neg p xs hx
        omega
      have hax : a ∈ xs := by
        rcases List.mem_cons.mp ha with h | h
        · subst h; exact absurd hp hx
        · exact h
      rw [List.find?_cons_of_neg xs hx]
      exact ih hxs1 hax

/-- When no element matches, the scan finds nothing. -/
theorem find?_eq_none_of_countP_eq_zero {α : Type} {p : α → Bool} {l : List α}
    (h : l.countP p = 0) : l.find? p = none := by
  rw [List.find?_eq_none]
  exact List.countP_eq_zero.mp h

/-- The last element of a list is a member. -/
theorem mem_of_getLast?_eq_some {α : Type} {l : List α} {a : α}
    (h : l.getLast? = some a) : a ∈ l := by
  have hmem : a ∈ l.getLast? := by rw [h]; exact rfl
  rcases List.mem_getLast?_eq_getLast hmem with ⟨hne, heq⟩
  rw [heq]
  exact List.getLast_mem hne

/-- getOrCreateVoiceoverBin never touches the timeline. -/
theorem getOrCreateVoiceoverBin_insertedClips (w : World) :
    ((getOrCreateVoiceoverBin w).2).insertedClips = w.insertedClips := by
  unfold getOrCreateVoiceoverBin
  split
  · rfl
  · split
    · rfl
    · split
      · rfl
      · split <;> rfl

/-- importFile never touches the timeline: the clip record is unchanged by
any import, successful or not. -/
theorem importFile_insertedClips (p : String) (w : World) :
    ((importFile p w).2).insertedClips = w.insertedClips := by
  unfold importFile
  split
  · rfl
  · rcases hbin : getOrCreateVoiceoverBin w with ⟨r, w1⟩
    have hw1 : w1.insertedClips = w.insertedClips := by
      have := getOrCreateVoiceoverBin_insertedClips w
      rw [hbin] at this
      exact this
    rcases r with e | b <;> simp only [hbin] <;>
      repeat' first
        | exact hw1
        | split

end PremiereBridge

namespace PremiereBridge

open ExtendScriptHost

/-! ### Claims -/

/-- C2: the claim states that for every trackIndex < 0 the UXP
insertIntoTimeline clamps the requested track index to 0. The code instead
computes Math.min(audioTrackIndex, Math.max(trackCount - 1, 0)), which for
a negative index is the negative index itself, passed through to the
createInsertProjectItemAction host call. Evaluated at audioTrackIndex = -1
with 2 audio tracks: the recorded insertion is on track -1, not 0, while
the ExtendScript variant of the same computation clamps -1 to 0. -/
theorem C2_negative_index_passthrough :
    (insertIntoTimeline itemNew (-1) baseWorld).2.insertedClips = [(-1, 7)]
    ∧ (insertIntoTimeline itemNew (-1) baseWorld).1 = .ok ()
    ∧ uxpClampTrack (-1) 2 = -1
    ∧ esClampTrack (-1) 2 = 0 :=
  ⟨by decide, rfl, by decide, by decide⟩

/-- C4: when a "Voiceovers" folder already exists at the project top level,
getOrCreateVoiceoverBin (and the ExtendScript _getOrCreateVoiceoverBin)
returns that folder unchanged and creates nothing, so the world is exactly
the input world, the count of top-level Voiceovers bins is unchanged, and
repeated sequential calls keep returning the same folder. -/
theorem C4_bin_idempotent (w : World) (b : Item)
    (hp : w.hasProject = true)
    (hnt : w.binResolutionThrows = false)
    (hb : findBinByName w.rootItems "Voiceovers" = some b) :
    getOrCreateVoiceoverBin w = (.ok (some b), w)
    ∧ esGetOrCreateVoiceoverBin w = (some b, w)
    ∧ b ∈ w.rootItems ∧ b.name = "Voiceovers" ∧ b.isBin = true
    ∧ ((getOrCreateVoiceoverBin w).2.rootItems.countP
          (fun x => x.name == "Voiceovers" && x.isBin)
        = w.rootItems.countP fun x => x.name == "Voiceovers" && x.isBin) := by
  have h1 : getOrCreateVoiceoverBin w = (.ok (some b), w) := by
    unfold getOrCreateVoiceoverBin
    simp [hp, hnt, hb]
  have h2 : esGetOrCreateVoiceoverBin w = (some b, w) := by
    unfold esGetOrCreateVoiceoverBin
    simp [hp, hb]
  have hb2 : w.rootItems.find? (fun it => it.name == "Voiceovers" && it.isBin) = some b := hb
  have hpb := List.find?_some hb2
  simp only [Bool.and_eq_true, beq_iff_eq] at hpb
  exact ⟨h1, h2, List.mem_of_find?_eq_some hb2, hpb.1, hpb.2, by rw [h1]⟩

/-- C4 witness: in the concrete base world the existing bin is returned and
the world is untouched. -/
theorem C4_bin_idempotent_witness :
    getOrCreateVoiceoverBin baseWorld = (.ok (some binItem), baseWorld)
    ∧ esGetOrCreateVoiceoverBin baseWorld = (some binItem, baseWorld)
    ∧ binItem ∈ baseWorld.rootItems ∧ binItem.name = "Voiceovers" ∧ binItem.isBin = true
    ∧ ((getOrCreateVoiceoverBin baseWorld).2.rootItems.countP
          (fun x => x.name == "Voiceovers" && x.isBin)
        = baseWorld.rootItems.countP fun x => x.name == "Voiceovers" && x.isBin) :=
  C4_bin_idempotent baseWorld binItem rfl rfl (by decide)

/-- C5 counterexample: the claim quantifies over every trackIndex >=
trackCount, but with trackCount = 0 the code clamps the index to 0, not to
trackCount - 1 = -1: requesting track 3 in a sequence with zero audio
tracks records an insertion on track 0. -/
theorem C5_counterexample :
    (insertIntoTimeline itemNew 3 { baseWorld with trackCount := 0 }).2.insertedClips
      = [(0, 7)]
    ∧ ((0 : Int) ≠ (0 : Int) - 1) := by
  decide

/-- C5 (amended): for every trackIndex >= trackCount in a sequence with at
least one audio track, insertIntoTimeline inserts the clip on track
trackCount - 1 instead of failing; when trackCount = 0 the index is
clamped to 0 instead. -/
theorem C5_clamp_to_last_track (w : World) (it : Item) (idx : Int)
    (hp : w.hasProject = true) (hs : w.hasSequence = true)
    (ht : w.insertHostThrows = false)
    (htc : 1 ≤ w.trackCount) (hidx : (w.trackCount : Int) ≤ idx) :
    insertIntoTimeline it idx w
      = (.ok (), { w with insertedClips :=
          w.insertedClips ++ [((w.trackCount : Int) - 1, w.playerPosition)] }) := by
  have hclamp : uxpClampTrack idx w.trackCount = (w.trackCount : Int) - 1 := by
    unfold uxpClampTrack
    have h1 : (1 : Int) ≤ (w.trackCount : Int) := by exact_mod_cast htc
    rw [max_eq_left (by omega)]
    exact min_eq_right (by omega)
  unfold insertIntoTimeline
  simp [hp, hs, ht, hclamp]

/-- C5 witness: requesting track 5 with 2 audio tracks inserts on track 1. -/
theorem C5_clamp_to_last_track_witness :
    insertIntoTimeline itemNew 5 baseWorld
      = (.ok (), { baseWorld with insertedClips :=
          baseWorld.insertedClips ++ [((baseWorld.trackCount : Int) - 1, baseWorld.playerPosition)] }) :=
  C5_clamp_to_last_track baseWorld itemNew 5 rfl rfl rfl (by decide) (by decide)

/-- C7: with no open project, importFile, insertIntoTimeline and
importAndInsert (in both variants) signal the no-active-project error and
return the world exactly as it was, so no folder, asset or timeline
mutation happens; and with a project but no active sequence, the
insertion entry points signal the no-active-sequence error, again with the
world unchanged. -/
theorem C7_no_project_no_mutation (w : World) (p : String) (it : Item) (idx : Int) :
    (w.hasProject = false →
      importFile p w = (.error .noActiveProject, w)
      ∧ insertIntoTimeline it idx w = (.error .noActiveProject, w)
      ∧ importAndInsert p idx w = (.error .noActiveProject, w)
      ∧ esImportFile p w = (.error .noProject, w)
      ∧ esImportAndInsert p idx w = (.error .noProject, w))
    ∧ (w.hasProject = true → w.hasSequence = false →
      insertIntoTimeline it idx w = (.error .noActiveSequence, w)
      ∧ esImportAndInsert p idx w = (.error .noSequence, w)) := by
  constructor
  · intro h
    have h1 : importFile p w = (.error .noActiveProject, w) := by
      unfold importFile
      simp [h]
    refine ⟨h1, ?_, ?_, ?_, ?_⟩
    · unfold insertIntoTimeline
      simp [h]
    · unfold importAndInsert
      rw [h1]
    · unfold esImportFile
      simp [h]
    · unfold esImportAndInsert
      simp [h]
  · intro h hs
    constructor
    · unfold insertIntoTimeline
      simp [h, hs]
    · unfold esImportAndInsert
      simp [h, hs]

/-- C7 witness: the closed project-less world is returned untouched with
the no-active-project error by all entry points. -/
theorem C7_no_project_no_mutation_witness :
    importFile "/tmp/vo.mp3" noProjectWorld = (.error .noActiveProject, noProjectWorld)
    ∧ insertIntoTimeline itemNew 0 noProjectWorld = (.error .noActiveProject, noProjectWorld)
    ∧ importAndInsert "/tmp/vo.mp3" 0 noProjectWorld = (.error .noActiveProject, noProjectWorld)
    ∧ esImportFile "/tmp/vo.mp3" noProjectWorld = (.error .noProject, noProjectWorld)
    ∧ esImportAndInsert "/tmp/vo.mp3" 0 noProjectWorld = (.error .noProject, noProjectWorld) :=
  (C7_no_project_no_mutation noProjectWorld "/tmp/vo.mp3" itemNew 0).1 rfl

/-- C8: getAudioTracks returns an empty sequence and never an error: with no
project or no sequence both variants return the empty list; a host
exception while enumerating tracks also yields the empty list; and whenever
the pre-catch body raises anything, the wrapped operation still returns
the empty list rather than surfacing an error. -/
theorem C8_empty_tracks_no_error (w : World) :
    ((w.hasProject = false ∨ w.hasSequence = false) →
      getAudioTracks w = [] ∧ esGetAudioTracks w = [])
    ∧ (w.tracksHostThrows = true →
      getAudioTracks w = [] ∧ esGetAudioTracks w = [])
    ∧ (∀ e, getAudioTracksBody w = .error e → getAudioTracks w = []) := by
  refine ⟨?_, ?_, ?_⟩
  · rintro (h | h) <;>
      exact ⟨by simp [getAudioTracks, getAudioTracksBody, h],
             by simp [esGetAudioTracks, h]⟩
  · intro h
    cases hp : w.hasProject <;> cases hs : w.hasSequence <;>
      exact ⟨by simp [getAudioTracks, getAudioTracksBody, h, hp, hs],
             by simp [esGetAudioTracks, h, hp, hs]⟩
  · intro e he
    unfold getAudioTracks
    rw [he]

/-- C8 witness: both variants return the empty list in the project-less
world. -/
theorem C8_empty_tracks_no_error_witness :
    getAudioTracks noProjectWorld = [] ∧ esGetAudioTracks noProjectWorld = [] :=
  (C8_empty_tracks_no_error noProjectWorld).1 (Or.inl rfl)

end PremiereBridge

namespace PremiereBridge

open ExtendScriptHost

/-- C3: if importFile fails with an error, importAndInsert propagates the
same error and never runs the insertion (the timeline clip record is
untouched); if importFile cannot locate the imported item and returns null,
importAndInsert signals importItemNotFound, again without inserting; and
whenever importAndInsert succeeds, the handle it returns is exactly the
item importFile located. -/
theorem C3_import_failure_blocks_insert (w : World) (p : String) (idx : Int) :
    (∀ e w1, importFile p w = (.error e, w1) →
      importAndInsert p idx w = (.error e, w1) ∧ w1.insertedClips = w.insertedClips)
    ∧ (∀ w1, importFile p w = (.ok none, w1) →
      importAndInsert p idx w = (.error .importItemNotFound, w1)
      ∧ w1.insertedClips = w.insertedClips)
    ∧ (∀ it w2, importAndInsert p idx w = (.ok it, w2) →
      (importFile p w).1 = .ok (some it)) := by
  refine ⟨?_, ?_, ?_⟩
  · intro e w1 h
    refine ⟨?_, ?_⟩
    · unfold importAndInsert
      rw [h]
    · have hc := importFile_insertedClips p w
      rw [h] at hc
      exact hc
  · intro w1 h
    refine ⟨?_, ?_⟩
    · unfold importAndInsert
      rw [h]
    · have hc := importFile_insertedClips p w
      rw [h] at hc
      exact hc
  · intro it w2 h
    unfold importAndInsert at h
    rcases himp : importFile p w with ⟨r, w1⟩
    rw [himp] at h
    rcases r with e | b
    · simp at h
    · rcases b with _ | pi
      · simp at h
      · simp only at h
        rcases hins : insertIntoTimeline pi idx w1 with ⟨ri, wi⟩
        rw [hins] at h
        rcases ri with e2 | u
        · simp at h
        · simp at h
          simp [h.1]

/-- C3 witness: in a world where the host adds nothing to the folder when
importing (so the whole location chain fails), importAndInsert reports
the item-not-found error without touching the timeline. -/
theorem C3_import_failure_blocks_insert_witness :
    importAndInsert "/tmp/vo.mp3" 0 { baseWorld with importAddedItems := [] }
      = (.error .importItemNotFound, { baseWorld with importAddedItems := [] })
    ∧ ({ baseWorld with importAddedItems := [] } : World).insertedClips
      = baseWorld.insertedClips :=
  (C3_import_failure_blocks_insert { baseWorld with importAddedItems := [] }
      "/tmp/vo.mp3" 0).2.1 { baseWorld with importAddedItems := [] } (by rfl)

end PremiereBridge

namespace PremiereBridge

open ExtendScriptHost

/-- C6 counterexample: the claim says any unexpected exception raised during
insertion is caught and re-signaled as InsertFailed, so nothing opaque
escapes the boundary. In the UXP variant insertIntoTimeline has no
try/catch: with a host that throws while building/executing the insert
action, the call surfaces the raw host exception, which is none of the five
taxonomy kinds and in particular not InsertFailed. -/
theorem C6_counterexample :
    (insertIntoTimeline itemNew 0 { baseWorld with insertHostThrows := true }).1
      = .error (.hostRaw "insert action failed")
    ∧ Err.hostRaw "insert action failed" ∉
        [Err.noActiveProject, Err.noActiveSequence, Err.importRejected,
         Err.importItemNotFound, Err.insertFailed] :=
  ⟨rfl, by decide⟩

/-- C6 (amended): the catch-and-re-signal guarantee holds only for the
ExtendScript variant, whose importAndInsert catches every exception and
returns a classified insert-error result; the UXP insertIntoTimeline lets
an unexpected host exception during insertion escape unwrapped (it is not
re-signaled as InsertFailed). -/
theorem C6_exception_boundary (w : World) (b it : Item) (idx : Int) (p : String)
    (hp : w.hasProject = true) (hs : w.hasSequence = true)
    (ht : w.insertHostThrows = true)
    (hnt : w.binResolutionThrows = false)
    (hb : findBinByName w.rootItems "Voiceovers" = some b)
    (his : w.importReturnsSuccess = true)
    (hne : w.binItems ++ w.importAddedItems ≠ []) :
    (insertIntoTimeline it idx w).1 = .error (.hostRaw "insert action failed")
    ∧ (insertIntoTimeline it idx w).1 ≠ .error .insertFailed
    ∧ (esImportAndInsert p idx w).1 = .error (.insertCaught "insertClip failed") := by
  have h1 : (insertIntoTimeline it idx w).1 = .error (.hostRaw "insert action failed") := by
    unfold insertIntoTimeline
    simp [hp, hs, ht]
  obtain ⟨li, hli⟩ := Option.isSome_iff_exists.mp (List.getLast?_isSome.mpr hne)
  have hIF : esImportFile p w
      = (.ok li.name, { w with binItems := w.binItems ++ w.importAddedItems }) := by
    unfold esImportFile esGetOrCreateVoiceoverBin
    simp [hp, hnt, hb, his, hli]
  have hES : esImportAndInsert p idx w
      = (.error (.insertCaught "insertClip failed"),
         { w with binItems := w.binItems ++ w.importAddedItems }) := by
    unfold esImportAndInsert esGetOrCreateVoiceoverBin
    simp [hp, hs, hIF, hnt, hb, hli, ht]
  refine ⟨h1, ?_, by rw [hES]⟩
  rw [h1]
  simp

/-- C6 witness: the concrete throwing world exercises both variants. -/
theorem C6_exception_boundary_witness :
    (insertIntoTimeline itemNew 0 { baseWorld with insertHostThrows := true }).1
      = .error (.hostRaw "insert action failed")
    ∧ (insertIntoTimeline itemNew 0 { baseWorld with insertHostThrows := true }).1
      ≠ .error .insertFailed
    ∧ (esImportAndInsert "/tmp/vo.mp3" 0 { baseWorld with insertHostThrows := true }).1
      = .error (.insertCaught "insertClip failed") :=
  C6_exception_boundary { baseWorld with insertHostThrows := true } binItem itemNew 0
    "/tmp/vo.mp3" rfl rfl rfl rfl (by decide) rfl (by decide)

/-- C10: when resolving or creating the Voiceovers bin throws,
getOrCreateVoiceoverBin indeed raises, but importFile catches this, does
not fail, and runs the whole import and item-location diff against the
project root folder instead: the import lands in rootItems, importFile
still returns a success value, and a single fresh-identity item appended by
the host is located through the root-folder diff. -/
theorem C10_root_fallback (w : World) (p : String) (it : Item)
    (hp : w.hasProject = true)
    (ht : w.binResolutionThrows = true)
    (his : w.importReturnsSuccess = true) :
    (getOrCreateVoiceoverBin w).1 = .error (.hostRaw "getItems failed")
    ∧ (importFile p w).2 = { w with rootItems := w.rootItems ++ w.importAddedItems }
    ∧ (∃ r, (importFile p w).1 = .ok r)
    ∧ (w.importAddedItems = [it] →
        uxpIsNewItem (mkBeforeIds w.rootItems) it = true →
        (importFile p w).1 = .ok (some it)) := by
  have hbin : getOrCreateVoiceoverBin w = (.error (.hostRaw "getItems failed"), w) := by
    unfold getOrCreateVoiceoverBin
    simp [hp, ht]
  refine ⟨by rw [hbin], ?_, ?_, ?_⟩
  · unfold importFile
    simp only [hbin, hp]
    simp [his]
    repeat' first
      | rfl
      | split
  · unfold importFile
    simp only [hbin, hp]
    simp [his]
    repeat' first
      | exact ⟨_, rfl⟩
      | split
  · intro hadd hnew
    have hfind : (w.rootItems ++ w.importAddedItems).find?
        (uxpIsNewItem (mkBeforeIds w.rootItems)) = some it := by
      rw [hadd, find?_append_of_forall_false
        (fun x hx => uxpIsNewItem_eq_false_of_mem hx)]
      exact List.find?_cons_of_pos [] hnew
    unfold importFile
    simp [hbin, hp, his, hfind]

/-- C10 witness: with a throwing bin resolution in the concrete base world,
the import runs against the root folder and locates the fresh item. -/
theorem C10_root_fallback_witness :
    (getOrCreateVoiceoverBin { baseWorld with binResolutionThrows := true }).1
      = .error (.hostRaw "getItems failed")
    ∧ (importFile "/tmp/vo.mp3" { baseWorld with binResolutionThrows := true }).2
      = { { baseWorld with binResolutionThrows := true } with
          rootItems := ({ baseWorld with binResolutionThrows := true } : World).rootItems
            ++ ({ baseWorld with binResolutionThrows := true } : World).importAddedItems }
    ∧ (∃ r, (importFile "/tmp/vo.mp3" { baseWorld with binResolutionThrows := true }).1 = .ok r)
    ∧ (({ baseWorld with binResolutionThrows := true } : World).importAddedItems = [itemNew] →
        uxpIsNewItem (mkBeforeIds ({ baseWorld with binResolutionThrows := true } : World).rootItems) itemNew = true →
        (importFile "/tmp/vo.mp3" { baseWorld with binResolutionThrows := true }).1
          = .ok (some itemNew)) :=
  C10_root_fallback { baseWorld with binResolutionThrows := true } "/tmp/vo.mp3" itemNew
    rfl rfl rfl

end PremiereBridge

namespace PremiereBridge

open ExtendScriptHost

/-- C1 counterexample: the claim says that when the identity diff is
ambiguous (zero OR MULTIPLE new identities) the result is the item whose
name equals the imported base name. With two fresh-identity items appended
by the host, where the second one carries the base name "vo" and the first
one does not, importFile returns the FIRST fresh-identity item ("X"), not
the base-name item: the loop over the identity diff returns on the first
new identity without checking how many there are. -/
theorem C1_counterexample :
    ((baseWorld.binItems ++ [itemOther, itemRenamed]).countP
        (uxpIsNewItem (mkBeforeIds baseWorld.binItems)) = 2)
    ∧ itemRenamed.name = baseFilename "/tmp/vo.mp3"
    ∧ (importFile "/tmp/vo.mp3"
        { baseWorld with importAddedItems := [itemOther, itemRenamed] }).1
      = .ok (some itemOther)
    ∧ itemOther.name ≠ baseFilename "/tmp/vo.mp3" :=
  ⟨by decide, by decide, by rfl, by decide⟩

/-- C1 (amended): for every successful host import with the Voiceovers bin
resolved, the item location follows the chain actually implemented: if
exactly one fresh identity appears in the before/after diff of the bin,
that item is returned; if at least one fresh identity appears, the first
such item in folder order is returned (so with multiple fresh identities
the name fallback is NOT consulted); only when zero fresh identities appear
does the result fall back to the first item named like the imported file
with its extension stripped; failing that too, the last item of the folder
is returned provided the item count increased; otherwise the result is
null. -/
theorem C1_location_chain (w : World) (p : String) (b : Item)
    (hp : w.hasProject = true)
    (hnt : w.binResolutionThrows = false)
    (hb : findBinByName w.rootItems "Voiceovers" = some b)
    (his : w.importReturnsSuccess = true) :
    (∀ it, (w.binItems ++ w.importAddedItems).countP
          (uxpIsNewItem (mkBeforeIds w.binItems)) = 1 →
        it ∈ w.binItems ++ w.importAddedItems →
        uxpIsNewItem (mkBeforeIds w.binItems) it = true →
        (importFile p w).1 = .ok (some it))
    ∧ (∀ it, (w.binItems ++ w.importAddedItems).find?
          (uxpIsNewItem (mkBeforeIds w.binItems)) = some it →
        (importFile p w).1 = .ok (some it))
    ∧ ((w.binItems ++ w.importAddedItems).countP
          (uxpIsNewItem (mkBeforeIds w.binItems)) = 0 →
       ∀ it, (w.binItems ++ w.importAddedItems).find?
          (fun x => x.name == baseFilename p) = some it →
        (importFile p w).1 = .ok (some it))
    ∧ ((w.binItems ++ w.importAddedItems).countP
          (uxpIsNewItem (mkBeforeIds w.binItems)) = 0 →
       (w.binItems ++ w.importAddedItems).find?
          (fun x => x.name == baseFilename p) = none →
       w.importAddedItems ≠ [] →
        (importFile p w).1 = .ok ((w.binItems ++ w.importAddedItems).getLast?))
    ∧ ((w.binItems ++ w.importAddedItems).countP
          (uxpIsNewItem (mkBeforeIds w.binItems)) = 0 →
       (w.binItems ++ w.importAddedItems).find?
          (fun x => x.name == baseFilename p) = none →
       w.importAddedItems = [] →
        (importFile p w).1 = .ok none) := by
  have hbin : getOrCreateVoiceoverBin w = (.ok (some b), w) := by
    unfold getOrCreateVoiceoverBin
    simp [hp, hnt, hb]
  refine ⟨?_, ?_, ?_, ?_, ?_⟩
  · intro it hcount hmem hnew
    have hfind := find?_eq_some_of_countP_eq_one hcount hmem hnew
    unfold importFile
    simp [hp, hbin, his, hfind]
  · intro it hfind
    unfold importFile
    simp [hp, hbin, his, hfind]
  · intro hcount it hfind
    have hnone := find?_eq_none_of_countP_eq_zero hcount
    unfold importFile
    simp [hp, hbin, his, hnone, hfind]
  · intro hcount hname hne
    have hnone := find?_eq_none_of_countP_eq_zero hcount
    have hpos : 0 < w.importAddedItems.length := List.length_pos.mpr hne
    unfold importFile
    simp [hp, hbin, his, hnone, hname, hpos]
  · intro hcount hname hadd
    have hnone := find?_eq_none_of_countP_eq_zero hcount
    rw [hadd, List.append_nil] at hnone hname
    unfold importFile
    simp [hp, hbin, his, hadd, hnone, hname]

/-- C1 witness: in the concrete base world exactly one fresh identity
appears and importFile returns it. -/
theorem C1_location_chain_witness :
    (importFile "/tmp/vo.mp3" baseWorld).1 = .ok (some itemNew) :=
  (C1_location_chain baseWorld "/tmp/vo.mp3" binItem rfl rfl (by decide) rfl).1
    itemNew (by decide) (by decide) (by decide)

end PremiereBridge

namespace PremiereBridge

open ExtendScriptHost

/-- C9 counterexample: on the same healthy host state with 2 audio tracks,
requesting track index -1 makes both variants succeed, but the legacy
ExtendScript importAndInsert clamps -1 to track 0 while the UXP
importAndInsert passes -1 through to the host insert action, so the two
variants do not use the same clamped track index. -/
theorem C9_counterexample :
    (importAndInsert "/tmp/vo.mp3" (-1) baseWorld).1 = .ok itemNew
    ∧ (importAndInsert "/tmp/vo.mp3" (-1) baseWorld).2.insertedClips = [(-1, 7)]
    ∧ (esImportAndInsert "/tmp/vo.mp3" (-1) baseWorld).1 = .ok "vo"
    ∧ (esImportAndInsert "/tmp/vo.mp3" (-1) baseWorld).2.insertedClips = [(0, 7)]
    ∧ ((-1 : Int) ≠ 0) :=
  ⟨by rfl, by rfl, by rfl, by rfl, by decide⟩

/-- C9 (amended): the two variants agree on every non-negative requested
track index and on clean imports. The clamped index computations coincide
for all indices >= 0 (both give min(idx, max(trackCount-1, 0))); and when
the host appends exactly one fresh-identity item to the resolved Voiceovers
bin, both variants select that same item, insert it at the playhead on the
same clamped track, and succeed, returning the item (UXP) and its name
(ExtendScript). For negative indices the variants disagree: ExtendScript
clamps to 0 while UXP passes the negative index through. -/
theorem C9_variant_agreement (w : World) (p : String) (b it : Item) (idx : Int)
    (i : String)
    (hp : w.hasProject = true) (hs : w.hasSequence = true)
    (hnt : w.binResolutionThrows = false)
    (hb : findBinByName w.rootItems "Voiceovers" = some b)
    (his : w.importReturnsSuccess = true)
    (hadd : w.importAddedItems = [it])
    (hid : it.itemId = some i)
    (hine : (i == "") = false)
    (hfresh : (mkBeforeIds w.binItems).contains i = false)
    (hidx : 0 ≤ idx)
    (hins : w.insertHostThrows = false) :
    (∀ (j : Int) (tc : Nat), 0 ≤ j → esClampTrack j tc = uxpClampTrack j tc)
    ∧ importAndInsert p idx w
        = (.ok it, { w with
            binItems := w.binItems ++ [it],
            insertedClips := w.insertedClips
              ++ [(uxpClampTrack idx w.trackCount, w.playerPosition)] })
    ∧ esImportAndInsert p idx w
        = (.ok it.name, { w with
            binItems := w.binItems ++ [it],
            insertedClips := w.insertedClips
              ++ [(uxpClampTrack idx w.trackCount, w.playerPosition)] }) := by
  have hclamp : ∀ (j : Int) (tc : Nat), 0 ≤ j → esClampTrack j tc = uxpClampTrack j tc := by
    intro j tc hj
    simp only [esClampTrack, uxpClampTrack]
    split <;> omega
  have hnew : uxpIsNewItem (mkBeforeIds w.binItems) it = true := by
    unfold uxpIsNewItem
    rw [hid]
    simp [hine]
    simpa using hfresh
  have hfind : (w.binItems ++ [it]).find? (uxpIsNewItem (mkBeforeIds w.binItems))
      = some it := by
    rw [find?_append_of_forall_false (fun x hx => uxpIsNewItem_eq_false_of_mem hx)]
    exact List.find?_cons_of_pos [] hnew
  have hbin : getOrCreateVoiceoverBin w = (.ok (some b), w) := by
    unfold getOrCreateVoiceoverBin
    simp [hp, hnt, hb]
  have hImp : importFile p w = (.ok (some it), { w with binItems := w.binItems ++ [it] }) := by
    unfold importFile
    simp [hp, hbin, his, hadd, hfind]
  have hInsert : insertIntoTimeline it idx { w with binItems := w.binItems ++ [it] }
      = (.ok (), { w with
          binItems := w.binItems ++ [it],
          insertedClips := w.insertedClips
            ++ [(uxpClampTrack idx w.trackCount, w.playerPosition)] }) := by
    unfold insertIntoTimeline
    simp [hp, hs, hins]
  have hUXP : importAndInsert p idx w
      = (.ok it, { w with
          binItems := w.binItems ++ [it],
          insertedClips := w.insertedClips
            ++ [(uxpClampTrack idx w.trackCount, w.playerPosition)] }) := by
    unfold importAndInsert
    rw [hImp]
    simp [hInsert]
  have hIFes : esImportFile p w
      = (.ok it.name, { w with binItems := w.binItems ++ [it] }) := by
    unfold esImportFile esGetOrCreateVoiceoverBin
    simp [hp, hnt, hb, his, hadd, List.getLast?_concat]
  have hESfull : esImportAndInsert p idx w
      = (.ok it.name, { w with
          binItems := w.binItems ++ [it],
          insertedClips := w.insertedClips
            ++ [(uxpClampTrack idx w.trackCount, w.playerPosition)] }) := by
    unfold esImportAndInsert esGetOrCreateVoiceoverBin
    simp [hp, hs, hIFes, hnt, hb, hins, List.getLast?_concat,
      hclamp idx w.trackCount hidx]
  exact ⟨hclamp, hUXP, hESfull⟩

/-- C9 witness: both variants agree on the concrete base world at track
index 1. -/
theorem C9_variant_agreement_witness :
    (∀ (j : Int) (tc : Nat), 0 ≤ j → esClampTrack j tc = uxpClampTrack j tc)
    ∧ importAndInsert "/tmp/vo.mp3" 1 baseWorld
        = (.ok itemNew, { baseWorld with
            binItems := baseWorld.binItems ++ [itemNew],
            insertedClips := baseWorld.insertedClips
              ++ [(uxpClampTrack 1 baseWorld.trackCount, baseWorld.playerPosition)] })
    ∧ esImportAndInsert "/tmp/vo.mp3" 1 baseWorld
        = (.ok itemNew.name, { baseWorld with
            binItems := baseWorld.binItems ++ [itemNew],
            insertedClips := baseWorld.insertedClips
              ++ [(uxpClampTrack 1 baseWorld.trackCount, baseWorld.playerPosition)] }) :=
  C9_variant_agreement baseWorld "/tmp/vo.mp3" binItem itemNew 1 "a2"
    rfl rfl rfl (by decide) rfl rfl rfl (by decide) (by decide) (by decide) rfl

end PremiereBridge
